import Mathlib

/-!
# Shallow embedding of `deeprank/learn/DataSet.py` (DeepRank_VariantPred)

This file embeds the parts of the `DataSet` class that the verified claims
are about: complex indexing and target filtering (`create_index_molecules`,
`filter`), feature-name resolution (`get_feature_name`), normalization
pooling (`_read_norm` together with the `NormParam` accumulator),
target normalization and its inverse (`_normalize_target`,
`backtransform_target`), and the per-item transform pipeline
(`__getitem__`, `_clip_feature`, `_normalize_feature`,
`make_feature_pair`, `convert2d`).

Machine floats are modelled by exact rationals, h5py group lookups by
association lists, and Python exceptions by `Option`/`Except`.
-/

/-! ## String helpers

Python's `in`, `startswith` and `split` on strings, implemented over the
character lists so that they reduce inside the kernel. -/

/-- Python `pat in s` (substring containment), on character lists. -/
def charsContain : List Char → List Char → Bool
  | [], pat => pat.isEmpty
  | l@(_ :: rest), pat => pat.isPrefixOf l || charsContain rest pat

/-- Python `pat in s` for strings. -/
def strContains (s pat : String) : Bool := charsContain s.toList pat.toList

/-- Python `s.startswith(pat)`. -/
def strStartsWith (s pat : String) : Bool := pat.toList.isPrefixOf s.toList

/-- Python `s.endswith(pat)` (used to state claims about chain suffixes). -/
def strEndsWith (s pat : String) : Bool := pat.toList.isSuffixOf s.toList

/-- Python `name.split('*')[0]`: the part of the string before the first
`*` (the whole string when no `*` occurs). -/
def splitStar (name : String) : String :=
  ⟨name.toList.takeWhile (fun c => c ≠ '*')⟩

/-! ## Feature-name resolution (`DataSet.get_feature_name`)

For a feature type whose name contains `_ind`, the source expands each
selected feature name: a name containing no chain tag and no wildcard is
expanded to `name_chainA, name_chainB`; a wildcard name is matched as a
prefix against the catalog of stored names; a name already containing a
chain tag is appended unchanged. -/

/-- The two reserved chain tags, in the fixed order used by the source
(`chain_tags = ['_chainA','_chainB']`). -/
def chain_tags : List String := ["_chainA", "_chainB"]

/-- Resolution of one selected feature name for a per-chain (`_ind`)
feature group, translated from the per-name body of the loop in
`DataSet.get_feature_name` (DataSet.py lines 412-438).
`possible_names` is `list(mapped_data[feat_type].keys())`. -/
def resolve_ind_name (possible_names : List String) (name : String) : List String :=
  if chain_tags.all (fun tag => !(strContains name tag)) then
    if strContains name "*" then
      possible_names.filter (fun n => strStartsWith n (splitStar name))
    else
      chain_tags.map (fun tag => name ++ tag)
  else
    [name]

/-- Resolution of a whole selected name list for a per-chain feature
group: the loop of `DataSet.get_feature_name` accumulates the per-name
expansions in order. -/
def resolve_ind (possible_names : List String) (names : List String) : List String :=
  names.flatMap (resolve_ind_name possible_names)

/-! ## Filtering and complex indexing
(`DataSet.filter`, `DataSet.create_index_molecules`) -/

/-- The comparison expressions admissible in `dict_filter` values: `<`,
`>`, `==` comparisons against a literal, joined with `or`/`and`.  The
source builds them by rewriting the condition string (prepending `val` to
each operator) and evaluating it with Python `eval`; this AST is the
result of that rewriting for the documented filter syntax. -/
inductive FilterExpr where
  | lt (c : ℚ)
  | gt (c : ℚ)
  | eq (c : ℚ)
  | conj (a b : FilterExpr)
  | disj (a b : FilterExpr)
deriving DecidableEq

/-- Evaluation of a filter expression at the stored target value `val`. -/
def FilterExpr.eval : FilterExpr → ℚ → Bool
  | .lt c, v => decide (v < c)
  | .gt c, v => decide (c < v)
  | .eq c, v => decide (v = c)
  | .conj a b, v => a.eval v && b.eval v
  | .disj a b, v => a.eval v || b.eval v

/-- One complex (h5 molecule group): its name and its stored scalar
targets, keyed by target name. -/
structure Molecule where
  name : String
  targets : List (String × ℚ)
deriving DecidableEq

/-- h5 lookup `molgrp['targets/' + name].value`; `none` is the `KeyError`
case. -/
def Molecule.target (m : Molecule) (tn : String) : Option ℚ :=
  m.targets.lookup tn

/-- Python exceptions that escape `DataSet.filter`. -/
inductive PyErr where
  | nameError
  | valueError
deriving DecidableEq

/-- `DataSet.filter` (DataSet.py lines 329-362).  `dict_filter` is `none`
or a list of (target name, condition) pairs.  For each condition the
stored target value is looked up; on `KeyError` the handler executes
`print('   :Filter %s not found for mol %s' % (cond_name, mol))`, and the
name `mol` is not defined in this scope, so a `NameError` escapes (and
even past the handler, `val` would be unbound in the subsequent `eval`).
A present value is tested against the condition; a failing condition
returns `False` immediately, otherwise the loop continues and finally
returns `True`. -/
def filterMol (dict_filter : Option (List (String × FilterExpr))) (m : Molecule) :
    Except PyErr Bool :=
  match dict_filter with
  | none => Except.ok true
  | some conds => filterConds conds m
where
  /-- The loop over `self.dict_filter.items()`. -/
  filterConds : List (String × FilterExpr) → Molecule → Except PyErr Bool
    | [], _ => Except.ok true
    | (tn, e) :: rest, m =>
      match m.target tn with
      | none => Except.error PyErr.nameError
      | some v => if e.eval v then filterConds rest m else Except.ok false

/-- One hdf5 shard: its file name, whether `h5py.File(fdata,'r')` succeeds,
and the molecule groups it contains (in key order). -/
structure Shard where
  path : String
  readable : Bool
  mols : List Molecule
deriving DecidableEq

/-- `if self.select_pdb: mol_names = set(self.select_pdb).intersection(mol_names)`:
with a non-empty selection only the selected molecule names are kept (the
source iterates a Python set; we keep the shard's own order, which no
claim depends on). -/
def selectMols (select_pdb : List String) (mols : List Molecule) : List Molecule :=
  if select_pdb.isEmpty then mols else mols.filter (fun m => select_pdb.contains m.name)

/-- The per-shard molecule loop of the *training* branch of
`create_index_molecules` (DataSet.py lines 291-293): each molecule kept by
`filter` contributes an entry `(fdata, k)`.  An exception raised by
`filter` aborts the loop; the entries appended before it are kept and the
remaining molecules of the shard are lost (the surrounding
`except Exception` only prints and moves on to the next shard). -/
def filterIndexLoop (dict_filter : Option (List (String × FilterExpr))) (path : String) :
    List Molecule → List (String × String)
  | [] => []
  | m :: rest =>
    match filterMol dict_filter m with
    | Except.error _ => []
    | Except.ok true => (path, m.name) :: filterIndexLoop dict_filter path rest
    | Except.ok false => filterIndexLoop dict_filter path rest

/-- Entries contributed by one training shard: nothing when the file does
not open, otherwise the filtered molecule loop. -/
def trainShardEntries (dict_filter : Option (List (String × FilterExpr)))
    (select_pdb : List String) (s : Shard) : List (String × String) :=
  if s.readable then filterIndexLoop dict_filter s.path (selectMols select_pdb s.mols) else []

/-- Entries contributed by one test shard (DataSet.py lines 312-321): the
test branch appends every (selected) molecule name; `filter` is not
called. -/
def testShardEntries (select_pdb : List String) (s : Shard) : List (String × String) :=
  if s.readable then (selectMols select_pdb s.mols).map (fun m => (s.path, m.name)) else []

/-- `DataSet.create_index_molecules` (DataSet.py lines 266-326): the
training shards are scanned first and define `ntrain`, then the test
shards are appended; the result is `(index_complexes, ntrain, ntot)`. -/
def create_index_molecules (dict_filter : Option (List (String × FilterExpr)))
    (select_pdb : List String) (database test_database : List Shard) :
    List (String × String) × ℕ × ℕ :=
  let train := database.flatMap (trainShardEntries dict_filter select_pdb)
  let all := train ++ test_database.flatMap (testShardEntries select_pdb)
  (all, train.length, all.length)

/-- `DataSet.__len__`: the number of indexed complexes. -/
def dataSetLen (index_complexes : List (String × String)) : ℕ :=
  index_complexes.length

/-! ## Normalization statistics pooling (`DataSet._read_norm`) -/

/-- Modelled from the spec: `NormParam` is imported from
`deeprank.generate`, which is not part of the sources; per §4.4 of the
spec it accumulates one `(mean, variance)` pair per shard and
`process(nfile)` pools them by simple arithmetic mean (equal-weight
pooling), the standard deviation being derived from the pooled
variance. -/
structure NormParam where
  mean : ℚ
  var : ℚ
deriving DecidableEq

/-- A fresh accumulator. -/
def NormParam.initial : NormParam := ⟨0, 0⟩

/-- `NormParam.add(mean, var)`: accumulate one shard's statistics. -/
def NormParam.add (p : NormParam) (m v : ℚ) : NormParam :=
  ⟨p.mean + m, p.var + v⟩

/-- `NormParam.process(nfile)`: divide the accumulated sums by the number
of shards (equal-weight pooling). -/
def NormParam.processed (p : NormParam) (nfile : ℕ) : NormParam :=
  ⟨p.mean / nfile, p.var / nfile⟩

/-- The standard deviation derived from the pooled variance. -/
noncomputable def NormParam.std (p : NormParam) : ℝ :=
  Real.sqrt p.var

/-- The pooled parameter of one feature after `_read_norm`'s accumulation
loop over `self.database` and the final `process(nfile)` (DataSet.py
lines 586-604): `stats` is the list of per-shard `(mean, var)` pairs read
from the per-shard caches. -/
def read_norm_pooled (stats : List (ℚ × ℚ)) : NormParam :=
  (stats.foldl (fun p mv => p.add mv.1 mv.2) NormParam.initial).processed stats.length

/-- The final standard deviation of one feature after `_read_norm`
(DataSet.py lines 604-607): the pooled std, with an exact zero replaced
by 1 (`if ... .std == 0: ... .std = 1`). -/
noncomputable def read_norm_std (stats : List (ℚ × ℚ)) : ℝ :=
  letI := Classical.propDecidable ((read_norm_pooled stats).std = 0)
  if (read_norm_pooled stats).std = 0 then 1 else (read_norm_pooled stats).std

/-- The final mean of one feature after `_read_norm`: the zero-std fix
touches only the `std` field, so the pooled mean is reported as is. -/
def read_norm_mean (stats : List (ℚ × ℚ)) : ℚ :=
  (read_norm_pooled stats).mean

/-! ## DataSet transform state

The fields of the `DataSet` instance consumed by `__getitem__` and the
transform steps, with the default values of `DataSet.__init__`.
`data_shape0` is `self.data_shape[0]`, the channel count of the raw
stack; `feature_mean`/`feature_std` and `target_min`/`target_max` are the
pooled statistics arrays built by `get_norm`; `pair_indexes` is built by
`get_pairing_feature`. -/
structure DataSetCfg where
  clip_features : Bool := true
  normalize_features : Bool := true
  normalize_targets : Bool := true
  pair_chain_feature : Option (ℚ → ℚ → ℚ) := none
  transform : Bool := false
  proj2D : ℤ := 0
  clip_factor : ℚ := 3 / 2
  data_shape0 : ℕ := 0
  feature_mean : List ℚ := []
  feature_std : List ℚ := []
  target_min : ℚ := 0
  target_max : ℚ := 0
  pair_indexes : List (List ℕ) := []

/-! ## Tensors

A numpy array is modelled by its shape and its row-major flat data.  For
a 4-D stack `(nc, nx, ny, nz)`, channel `ic` occupies the flat positions
`j` with `j / (nx*ny*nz) = ic`. -/

/-- A numpy array: shape and row-major flat rational data. -/
structure Tensor where
  shape : List ℕ
  data : List ℚ
deriving DecidableEq

/-- The flat length of one leading-axis slice `feature[ic]`. -/
def Tensor.chanSize (t : Tensor) : ℕ := (t.shape.drop 1).prod

/-- `feature[i]` for a leading-axis index `i` (h5/numpy indexing, `none`
is the `IndexError` case). -/
def tensorChan (t : Tensor) (i : ℕ) : Option (List ℚ) :=
  if i < t.shape.headD 0 then
    some ((t.data.drop (i * t.chanSize)).take t.chanSize)
  else none

/-! ## The transform steps -/

/-- `np.clip(x, lo, hi)` on one scalar: `min(max(x, lo), hi)`, written
with explicit comparisons so that it evaluates inside the kernel. -/
def npClip (x lo hi : ℚ) : ℚ :=
  if hi ≤ (if x ≤ lo then lo else x) then hi else (if x ≤ lo then lo else x)

/-- The lower clip bound of channel `ic`:
`self.feature_mean[ic] - self.clip_factor * self.feature_std[ic]`. -/
def clipLo (ds : DataSetCfg) (ic : ℕ) : ℚ :=
  ds.feature_mean.getD ic 0 - ds.clip_factor * ds.feature_std.getD ic 0

/-- The upper clip bound of channel `ic`:
`self.feature_mean[ic] + self.clip_factor * self.feature_std[ic]`. -/
def clipHi (ds : DataSetCfg) (ic : ℕ) : ℚ :=
  ds.feature_mean.getD ic 0 + ds.clip_factor * ds.feature_std.getD ic 0

/-- The effect of `_clip_feature`'s channel loop on the flat element at
position `j` of a tensor with channel size `cs`. -/
def clipElem (ds : DataSetCfg) (cs j : ℕ) (x : ℚ) : ℚ :=
  if j / cs < ds.data_shape0 then npClip x (clipLo ds (j / cs)) (clipHi ds (j / cs)) else x

/-- `DataSet._clip_feature` (DataSet.py lines 666-680): for every channel
`ic < self.data_shape[0]`, clip the channel to
`[mean - w*std, mean + w*std]`.  The guard is the Python `IndexError`
condition: every accessed index must exist in the feature and in the
statistics arrays. -/
def clip_feature (ds : DataSetCfg) (feature : Tensor) : Option Tensor :=
  if ds.data_shape0 ≤ feature.shape.headD 0 ∧ ds.data_shape0 ≤ ds.feature_mean.length
      ∧ ds.data_shape0 ≤ ds.feature_std.length then
    some { feature with data := List.mapIdx (clipElem ds feature.chanSize) feature.data }
  else none

/-- The effect of `_normalize_feature`'s channel loop on the flat element
at position `j`: `(x - mean_ic) / std_ic`. -/
def normElem (ds : DataSetCfg) (cs j : ℕ) (x : ℚ) : ℚ :=
  if j / cs < ds.data_shape0 then
    (x - ds.feature_mean.getD (j / cs) 0) / ds.feature_std.getD (j / cs) 0
  else x

/-- `DataSet._normalize_feature` (DataSet.py lines 654-664). -/
def normalize_feature (ds : DataSetCfg) (feature : Tensor) : Option Tensor :=
  if ds.data_shape0 ≤ feature.shape.headD 0 ∧ ds.data_shape0 ≤ ds.feature_mean.length
      ∧ ds.data_shape0 ≤ ds.feature_std.length then
    some { feature with data := List.mapIdx (normElem ds feature.chanSize) feature.data }
  else none

/-- `DataSet._normalize_target` (DataSet.py lines 642-652):
`target -= self.target_min; target /= self.target_max`. -/
def normalize_target (ds : DataSetCfg) (target : ℚ) : ℚ :=
  (target - ds.target_min) / ds.target_max

/-- `DataSet.backtransform_target` (DataSet.py lines 629-640):
`data *= self.target_max; data += self.target_min`. -/
def backtransform_target (ds : DataSetCfg) (data : ℚ) : ℚ :=
  data * ds.target_max + ds.target_min

/-- `DataSet.make_feature_pair` (DataSet.py lines 799-823): each index
group of `pair_indexes` selects either a single channel, which passes
through, or two channels, which are combined elementwise by `op`
(`op(feature[ind[0],...], feature[ind[1],...])`; an empty group would hit
`ind[0]` and raise).  The combined channels are stacked into a new
leading axis. -/
def make_feature_pair (feature : Tensor) (pair_indexes : List (List ℕ))
    (op : ℚ → ℚ → ℚ) : Option Tensor := do
  let chans ← pair_indexes.mapM (fun ind =>
    match ind with
    | [] => none
    | [i] => tensorChan feature i
    | i :: j :: _ => do
      let a ← tensorChan feature i
      let b ← tensorChan feature j
      pure (List.zipWith op a b))
  pure { shape := pair_indexes.length :: feature.shape.drop 1, data := chans.flatten }

/-- numpy `feature.reshape(-1, *dims).squeeze()`: the data is kept, the
unknown leading axis is the array size divided by the product of the
known dimensions (a zero or non-dividing product is a numpy error), and
`squeeze` drops every axis of size 1. -/
def reshapeSqueeze (t : Tensor) (dims : List ℕ) : Option Tensor :=
  let kp := dims.prod
  if kp = 0 then none
  else if t.data.length % kp ≠ 0 then none
  else some { shape := ((t.data.length / kp) :: dims).filter (fun d => d ≠ 1), data := t.data }

/-- `DataSet.convert2d` (DataSet.py lines 777-797): unpack the 4-D shape
(`nc,nx,ny,nz = feature.shape`, a non-4-D shape raises), then reshape
according to the projection axis; any projection outside `{0,1,2}` falls
through every branch and the feature is returned unchanged. -/
def convert2d (feature : Tensor) (proj2d : ℤ) : Option Tensor :=
  match feature.shape with
  | [_nc, nx, ny, nz] =>
    if proj2d = 0 then reshapeSqueeze feature [1, ny, nz]
    else if proj2d = 1 then reshapeSqueeze feature [nx, 1, nz]
    else if proj2d = 2 then reshapeSqueeze feature [nx, ny, 1]
    else some feature
  | _ => none

/-! ## `DataSet.__getitem__` and the pipeline it realizes -/

/-- `DataSet.__getitem__` (DataSet.py lines 215-243), translated
statement by statement: look the index up in `index_complexes`, load the
raw feature stack and target (`load_one_molecule`, an h5 read modelled as
an oracle), then apply the five conditional transform statements in
source order and return `{'mol': [fname, mol], 'feature': ..., 'target': ...}`. -/
def dataSetGetItem (ds : DataSetCfg) (index_complexes : List (String × String))
    (load_one_molecule : String × String → Option (Tensor × ℚ)) (index : ℕ) :
    Option ((String × String) × Tensor × ℚ) := do
  let fm ← index_complexes[index]?
  let ft ← load_one_molecule fm
  let feature0 := ft.1
  let target0 := ft.2
  let feature1 ← if ds.clip_features then clip_feature ds feature0 else pure feature0
  let feature2 ← if ds.normalize_features then normalize_feature ds feature1 else pure feature1
  let target1 := if ds.normalize_targets then normalize_target ds target0 else target0
  let feature3 ← (match ds.pair_chain_feature with
    | some op => make_feature_pair feature2 ds.pair_indexes op
    | none => pure feature2)
  let feature4 ← if ds.transform then convert2d feature3 ds.proj2D else pure feature3
  pure (fm, feature4, target1)

/-- Apply a fallible transform step only when its toggle is enabled. -/
def appIf (b : Bool) (f : Tensor → Option Tensor) (x : Tensor) : Option Tensor :=
  if b then f x else some x

/-- The transform pipeline in the fixed order stated by the spec (§4.6):
outlier clipping, then per-channel feature normalization, then target
normalization, then chain-pairing, then 3-D-to-2-D projection, each step
applied exactly when its toggle is enabled.  This is the spec-side
description that `dataSetGetItem` is compared against. -/
def featureTransformPipeline (ds : DataSetCfg) (ft : Tensor × ℚ) : Option (Tensor × ℚ) := do
  let f1 ← appIf ds.clip_features (clip_feature ds) ft.1
  let f2 ← appIf ds.normalize_features (normalize_feature ds) f1
  let t1 := if ds.normalize_targets then normalize_target ds ft.2 else ft.2
  let f3 ← (match ds.pair_chain_feature with
    | some op => make_feature_pair f2 ds.pair_indexes op
    | none => some f2)
  let f4 ← appIf ds.transform (fun f => convert2d f ds.proj2D) f3
  pure (f4, t1)

/-! ## Helper lemmas -/

/-- A pattern is found in any character list that ends with it. -/
theorem charsContain_suffix (xs pat : List Char) : charsContain (xs ++ pat) pat = true := by
  induction xs with
  | nil =>
    cases pat with
    | nil => rfl
    | cons c r =>
      have hpre : (c :: r).isPrefixOf (c :: r) = true :=
        List.isPrefixOf_iff_prefix.mpr List.prefix_rfl
      simp [charsContain, hpre]
  | cons x xs ih => simp [charsContain, ih]

/-- A string contains any of its suffixes as a substring. -/
theorem strContains_append (s t : String) : strContains (s ++ t) t = true := by
  show charsContain (s ++ t).data t.data = true
  rw [String.data_append]
  exact charsContain_suffix s.data t.data

/-- A name carrying a chain tag resolves to itself. -/
theorem resolve_ind_name_of_tag {pn : List String} {name : String}
    (h : strContains name "_chainA" = true ∨ strContains name "_chainB" = true) :
    resolve_ind_name pn name = [name] := by
  unfold resolve_ind_name
  rcases h with h | h <;> simp [chain_tags, h]

/-- `select_pdb` restriction keeps only molecules of the shard. -/
theorem mem_selectMols {sp : List String} {mols : List Molecule} {m : Molecule}
    (h : m ∈ selectMols sp mols) : m ∈ mols := by
  unfold selectMols at h
  split at h
  · exact h
  · exact List.mem_of_mem_filter h

/-- Every entry produced by the training molecule loop comes from a
molecule of the scanned list that the filter accepted. -/
theorem mem_filterIndexLoop {df : Option (List (String × FilterExpr))} {path p n : String} :
    ∀ {mols : List Molecule}, (p, n) ∈ filterIndexLoop df path mols →
      p = path ∧ ∃ m ∈ mols, m.name = n ∧ filterMol df m = Except.ok true := by
  intro mols
  induction mols with
  | nil => intro h; simp [filterIndexLoop] at h
  | cons m rest ih =>
    intro h
    rw [filterIndexLoop] at h
    split at h
    · simp at h
    · next heq =>
      rcases List.mem_cons.mp h with h1 | h1
      · have hp : p = path := congrArg Prod.fst h1
        have hn : m.name = n := (congrArg Prod.snd h1).symm
        exact ⟨hp, m, List.mem_cons_self m rest, hn, heq⟩
      · obtain ⟨hp, m2, hm2, hname, hfil⟩ := ih h1
        exact ⟨hp, m2, List.mem_cons_of_mem m hm2, hname, hfil⟩
    · obtain ⟨hp, m2, hm2, hname, hfil⟩ := ih h
      exact ⟨hp, m2, List.mem_cons_of_mem m hm2, hname, hfil⟩

/-- If the filter rejects every molecule the training loop yields nothing. -/
theorem filterIndexLoop_eq_nil {df : Option (List (String × FilterExpr))} {path : String} :
    ∀ {mols : List Molecule}, (∀ m ∈ mols, filterMol df m = Except.ok false) →
      filterIndexLoop df path mols = [] := by
  intro mols
  induction mols with
  | nil => intro _; rfl
  | cons m rest ih =>
    intro h
    rw [filterIndexLoop]
    rw [h m (List.mem_cons_self m rest)]
    exact ih (fun m2 hm2 => h m2 (List.mem_cons_of_mem m hm2))

/-- A molecule accepted by the condition loop satisfies every condition. -/
theorem filterConds_ok_true {m : Molecule} :
    ∀ {conds : List (String × FilterExpr)}, filterMol.filterConds conds m = Except.ok true →
      ∀ ce ∈ conds, ∃ v, m.target ce.1 = some v ∧ ce.2.eval v = true := by
  intro conds
  induction conds with
  | nil => intro _ ce hce; simp at hce
  | cons c rest ih =>
    intro h ce hce
    rw [filterMol.filterConds] at h
    split at h
    · exact absurd h (by simp)
    · next v hv =>
      by_cases he : c.2.eval v = true
      · rw [if_pos he] at h
        rcases List.mem_cons.mp hce with h1 | h1
        · subst h1; exact ⟨v, hv, he⟩
        · exact ih h ce h1
      · rw [if_neg he] at h
        exact absurd h (by simp)

/-! ## Claims -/

/-- C2: for every target value `t` and fixed pooled target min and max
with max nonzero, `backtransform_target` exactly undoes the target
normalization `(t - min) / max`: the round trip returns `t` over exact
arithmetic. -/
theorem claim_C2_target_roundtrip (ds : DataSetCfg) (t : ℚ) (h : ds.target_max ≠ 0) :
    backtransform_target ds (normalize_target ds t) = t := by
  unfold backtransform_target normalize_target
  field_simp

/-- Witness for C2 at `min = 2`, `max = 5`, `t = 7`. -/
theorem claim_C2_target_roundtrip_witness :
    ({ target_min := 2, target_max := 5 } : DataSetCfg).target_max ≠ 0
    ∧ backtransform_target { target_min := 2, target_max := 5 }
        (normalize_target { target_min := 2, target_max := 5 } 7) = 7 :=
  ⟨by decide, claim_C2_target_roundtrip { target_min := 2, target_max := 5 } 7 (by decide)⟩

/-- C3: for every list of per-shard `(mean, variance)` statistics of a
feature, the final standard deviation produced by `_read_norm` is never
zero; a pooled variance of exactly zero makes it 1, and the pooled mean
is reported unchanged (so normalization of such a channel degenerates to
mean-subtraction). -/
theorem claim_C3_pooled_std_never_zero (stats : List (ℚ × ℚ)) :
    read_norm_std stats ≠ 0
    ∧ ((read_norm_pooled stats).var = 0 → read_norm_std stats = 1)
    ∧ read_norm_mean stats = (read_norm_pooled stats).mean := by
  refine ⟨?_, ?_, rfl⟩
  · unfold read_norm_std
    split
    · norm_num
    · next h => exact h
  · intro hv
    unfold read_norm_std
    split
    · rfl
    · next h =>
      exact absurd (by simp [NormParam.std, hv]) h

/-- C4: in the ordered entry list produced by `create_index_molecules`,
every train-pool entry precedes every test-pool entry: positions
`[0, ntrain)` are exactly the entries drawn from the training shards and
positions `[ntrain, ntot)` exactly those drawn from the test shards, for
every combination of shard lists. -/
theorem claim_C4_train_before_test (dict_filter : Option (List (String × FilterExpr)))
    (select_pdb : List String) (database test_database : List Shard) :
    (create_index_molecules dict_filter select_pdb database test_database).2.1 =
        (database.flatMap (trainShardEntries dict_filter select_pdb)).length
    ∧ (create_index_molecules dict_filter select_pdb database test_database).2.2 =
        (create_index_molecules dict_filter select_pdb database test_database).1.length
    ∧ ((create_index_molecules dict_filter select_pdb database test_database).1.take
          (create_index_molecules dict_filter select_pdb database test_database).2.1) =
        database.flatMap (trainShardEntries dict_filter select_pdb)
    ∧ ((create_index_molecules dict_filter select_pdb database test_database).1.drop
          (create_index_molecules dict_filter select_pdb database test_database).2.1) =
        test_database.flatMap (testShardEntries select_pdb) := by
  refine ⟨rfl, rfl, ?_, ?_⟩
  · exact List.take_left _ _
  · exact List.drop_left _ _

/-- C9: over a non-empty training shard in which the filter rejects every
complex, index building succeeds and the dataset length is 0. -/
theorem claim_C9_empty_after_filter (dict_filter : Option (List (String × FilterExpr)))
    (select_pdb : List String) (s : Shard) (_hne : s.mols ≠ [])
    (hall : ∀ m ∈ s.mols, filterMol dict_filter m = Except.ok false) :
    dataSetLen (create_index_molecules dict_filter select_pdb [s] []).1 = 0 := by
  unfold dataSetLen create_index_molecules
  simp only [List.flatMap_cons, List.flatMap_nil, List.append_nil]
  unfold trainShardEntries
  split
  · rw [filterIndexLoop_eq_nil (fun m hm => hall m (mem_selectMols hm))]
    rfl
  · rfl

/-- Witness for C9: one shard, one molecule, a filter that rejects it. -/
theorem claim_C9_empty_after_filter_witness :
    (⟨"a.hdf5", true, [⟨"m1", [("IRMSD", 7)]⟩]⟩ : Shard).mols ≠ []
    ∧ dataSetLen (create_index_molecules (some [("IRMSD", FilterExpr.lt 4)]) []
        [⟨"a.hdf5", true, [⟨"m1", [("IRMSD", 7)]⟩]⟩] []).1 = 0 :=
  ⟨by decide,
    claim_C9_empty_after_filter (some [("IRMSD", FilterExpr.lt 4)]) []
      ⟨"a.hdf5", true, [⟨"m1", [("IRMSD", 7)]⟩]⟩ (by decide)
      (by intro m hm; rw [List.mem_singleton] at hm; subst hm; rfl)⟩

/-- C10: `convert2d` called on a 4-D feature with a projection axis
outside `{0, 1, 2}` returns the input unchanged (same shape and data),
raising no error. -/
theorem claim_C10_projection_noop (t : Tensor) (nc nx ny nz : ℕ)
    (hs : t.shape = [nc, nx, ny, nz]) (p : ℤ) (h0 : p ≠ 0) (h1 : p ≠ 1) (h2 : p ≠ 2) :
    convert2d t p = some t := by
  rcases t with ⟨sh, d⟩
  simp only at hs
  subst hs
  simp [convert2d, h0, h1, h2]

/-- Witness for C10 at shape `(1,2,3,4)` and projection 5. -/
theorem claim_C10_projection_noop_witness :
    convert2d ⟨[1, 2, 3, 4], []⟩ 5 = some ⟨[1, 2, 3, 4], []⟩ :=
  claim_C10_projection_noop ⟨[1, 2, 3, 4], []⟩ 1 2 3 4 rfl 5
    (by decide) (by decide) (by decide)

/-- C1 (code-bug evidence): with `dict_filter = {'IRMSD': '<4.'}` and a
training shard holding `m1` (IRMSD 1), `m2` (no IRMSD target) and `m3`
(IRMSD 1), the broken `KeyError` handler of `filter` (it prints the
undefined name `mol`) raises on `m2`; `create_index_molecules` catches
the exception at shard level, so only `m1` is indexed: `m3` satisfies the
filter yet is dropped together with the rest of the shard, against the
claimed warn-and-exclude-one-complex behaviour. -/
theorem claim_C1_missing_target_drops_shard_tail :
    create_index_molecules (some [("IRMSD", FilterExpr.lt 4)]) []
        [⟨"train.hdf5", true,
          [⟨"m1", [("IRMSD", 1)]⟩, ⟨"m2", []⟩, ⟨"m3", [("IRMSD", 1)]⟩]⟩] []
      = ([("train.hdf5", "m1")], 1, 1)
    ∧ filterMol (some [("IRMSD", FilterExpr.lt 4)]) ⟨"m3", [("IRMSD", 1)]⟩ = Except.ok true
    ∧ filterMol (some [("IRMSD", FilterExpr.lt 4)]) ⟨"m2", []⟩ = Except.error PyErr.nameError :=
  ⟨rfl, rfl, rfl⟩

/-- C6 is false as stated: complexes of *test* shards are indexed without
any filtering.  With `dict_filter = {'IRMSD': '<4.'}` and a test shard
holding `mx` with stored IRMSD 5, the entry `("test.hdf5","mx")` appears
in the final list although its target fails the supplied expression. -/
theorem claim_C6_counterexample :
    ("test.hdf5", "mx") ∈ (create_index_molecules (some [("IRMSD", FilterExpr.lt 4)]) [] []
        [⟨"test.hdf5", true, [⟨"mx", [("IRMSD", 5)]⟩]⟩]).1
    ∧ FilterExpr.eval (FilterExpr.lt 4) 5 = false
    ∧ filterMol (some [("IRMSD", FilterExpr.lt 4)]) ⟨"mx", [("IRMSD", 5)]⟩
        = Except.ok false := by
  refine ⟨?_, by decide, rfl⟩
  simp [create_index_molecules, testShardEntries, selectMols]

/-- C6 (amended): every complex that reaches the *train* segment of the
final entry list has, for every target named in the filter predicate, a
stored value satisfying that target's comparison expression; entries of
test shards are appended without filtering. -/
theorem claim_C6_train_entries_satisfy_filter (conds : List (String × FilterExpr))
    (select_pdb : List String) (database test_database : List Shard) (p n : String)
    (hmem : (p, n) ∈ ((create_index_molecules (some conds) select_pdb database
        test_database).1.take
        (create_index_molecules (some conds) select_pdb database test_database).2.1)) :
    ∃ s ∈ database, p = s.path ∧ ∃ m ∈ s.mols, m.name = n ∧
      ∀ ce ∈ conds, ∃ v, m.target ce.1 = some v ∧ ce.2.eval v = true := by
  rw [show ((create_index_molecules (some conds) select_pdb database test_database).1.take
        (create_index_molecules (some conds) select_pdb database test_database).2.1)
      = database.flatMap (trainShardEntries (some conds) select_pdb) from
    List.take_left _ _] at hmem
  obtain ⟨s, hs, hentry⟩ := List.mem_flatMap.mp hmem
  refine ⟨s, hs, ?_⟩
  unfold trainShardEntries at hentry
  split at hentry
  · obtain ⟨hp, m, hm, hname, hfil⟩ := mem_filterIndexLoop hentry
    refine ⟨hp, m, mem_selectMols hm, hname, ?_⟩
    exact filterConds_ok_true hfil
  · simp at hentry

/-- Witness for the amended C6: a train shard whose sole molecule passes
the filter produces a train entry, and the theorem recovers the molecule
together with its satisfied condition. -/
theorem claim_C6_train_entries_satisfy_filter_witness :
    ∃ s ∈ [(⟨"tr.hdf5", true, [⟨"ok1", [("IRMSD", 1)]⟩]⟩ : Shard)], "tr.hdf5" = s.path
      ∧ ∃ m ∈ s.mols, m.name = "ok1" ∧
        ∀ ce ∈ [("IRMSD", FilterExpr.lt 4)], ∃ v, m.target ce.1 = some v
          ∧ ce.2.eval v = true :=
  claim_C6_train_entries_satisfy_filter [("IRMSD", FilterExpr.lt 4)] []
    [⟨"tr.hdf5", true, [⟨"ok1", [("IRMSD", 1)]⟩]⟩] [] "tr.hdf5" "ok1" (by decide)

/-- C5 is false as stated: the source tests for the chain tags as
*substrings*, not suffixes.  The name `foo_chainAbar` carries no chain
suffix and no wildcard, yet it is passed through unchanged instead of
being expanded to the two chain-tagged names. -/
theorem claim_C5_counterexample :
    strEndsWith "foo_chainAbar" "_chainA" = false
    ∧ strEndsWith "foo_chainAbar" "_chainB" = false
    ∧ strContains "foo_chainAbar" "*" = false
    ∧ resolve_ind_name [] "foo_chainAbar" = ["foo_chainAbar"]
    ∧ resolve_ind_name [] "foo_chainAbar" ≠
        ["foo_chainAbar" ++ "_chainA", "foo_chainAbar" ++ "_chainB"] :=
  ⟨by decide, by decide, by decide, by decide, by decide⟩

/-- C5 (amended): for a per-chain feature group, a name containing no
chain tag as a substring and no wildcard resolves to exactly the two
chain-tagged names, first suffix then second, and that expansion resolves
to itself; any name containing a chain tag as a substring (in particular
every name carrying a chain suffix) is passed through unchanged. -/
theorem claim_C5_chain_expansion (possible_names : List String) (name : String) :
    ((strContains name "_chainA" = false) → (strContains name "_chainB" = false) →
      (strContains name "*" = false) →
      resolve_ind_name possible_names name = [name ++ "_chainA", name ++ "_chainB"]
      ∧ resolve_ind possible_names (resolve_ind_name possible_names name)
          = resolve_ind_name possible_names name)
    ∧ ((strContains name "_chainA" = true ∨ strContains name "_chainB" = true) →
      resolve_ind_name possible_names name = [name]) := by
  constructor
  · intro h1 h2 h3
    have hres : resolve_ind_name possible_names name
        = [name ++ "_chainA", name ++ "_chainB"] := by
      unfold resolve_ind_name
      simp [chain_tags, h1, h2, h3]
    refine ⟨hres, ?_⟩
    rw [hres]
    unfold resolve_ind
    rw [List.flatMap_cons, List.flatMap_cons, List.flatMap_nil]
    rw [resolve_ind_name_of_tag (Or.inl (strContains_append name "_chainA"))]
    rw [resolve_ind_name_of_tag (Or.inr (strContains_append name "_chainB"))]
    rfl
  · exact resolve_ind_name_of_tag

/-- Witness for the amended C5: `pssm` expands to the two tagged names
and the expansion is stable; `pssm_chainA` passes through unchanged. -/
theorem claim_C5_chain_expansion_witness :
    resolve_ind_name ["x"] "pssm" = ["pssm" ++ "_chainA", "pssm" ++ "_chainB"]
    ∧ resolve_ind ["x"] (resolve_ind_name ["x"] "pssm") = resolve_ind_name ["x"] "pssm"
    ∧ resolve_ind_name ["x"] "pssm_chainA" = ["pssm_chainA"] :=
  ⟨((claim_C5_chain_expansion ["x"] "pssm").1 (by decide) (by decide) (by decide)).1,
   ((claim_C5_chain_expansion ["x"] "pssm").1 (by decide) (by decide) (by decide)).2,
   (claim_C5_chain_expansion ["x"] "pssm_chainA").2 (Or.inl (by decide))⟩

/-- Behaviour of the scalar `np.clip` on an interval `[lo, hi]` with
`lo ≤ hi`: the result lies in the interval, values below become `lo`,
values above become `hi`, and values inside are unchanged. -/
theorem npClip_spec (x lo hi : ℚ) (hlh : lo ≤ hi) :
    lo ≤ npClip x lo hi ∧ npClip x lo hi ≤ hi
    ∧ (x < lo → npClip x lo hi = lo) ∧ (hi < x → npClip x lo hi = hi)
    ∧ (lo ≤ x → x ≤ hi → npClip x lo hi = x) := by
  unfold npClip
  split_ifs with h1 h2 <;>
    exact ⟨by linarith, by linarith, fun hx => by linarith,
      fun hx => by linarith, fun hx1 hx2 => by linarith⟩

/-- C8: for every channel `ic` below the channel count, `_clip_feature`
maps each value of that channel through `np.clip` with bounds
`mean_ic ± clip_factor * std_ic`; whenever the half-width is nonnegative
the result lies in the interval, with values below the lower bound sent
to it, values above the upper bound sent to it, and interior values
unchanged. -/
theorem claim_C8_clip_to_interval (ds : DataSetCfg) (t u : Tensor)
    (h : clip_feature ds t = some u) (j : ℕ) (hj : j < t.data.length)
    (hic : j / t.chanSize < ds.data_shape0)
    (hw : 0 ≤ ds.clip_factor * ds.feature_std.getD (j / t.chanSize) 0) :
    u.data.getD j 0 = npClip (t.data.getD j 0)
        (clipLo ds (j / t.chanSize)) (clipHi ds (j / t.chanSize))
    ∧ clipLo ds (j / t.chanSize) ≤ u.data.getD j 0
    ∧ u.data.getD j 0 ≤ clipHi ds (j / t.chanSize)
    ∧ (t.data.getD j 0 < clipLo ds (j / t.chanSize) →
        u.data.getD j 0 = clipLo ds (j / t.chanSize))
    ∧ (clipHi ds (j / t.chanSize) < t.data.getD j 0 →
        u.data.getD j 0 = clipHi ds (j / t.chanSize))
    ∧ (clipLo ds (j / t.chanSize) ≤ t.data.getD j 0 →
        t.data.getD j 0 ≤ clipHi ds (j / t.chanSize) →
        u.data.getD j 0 = t.data.getD j 0) := by
  have helem : u.data.getD j 0 = npClip (t.data.getD j 0)
      (clipLo ds (j / t.chanSize)) (clipHi ds (j / t.chanSize)) := by
    unfold clip_feature at h
    split at h
    · cases h
      dsimp only
      have hj2 : j < (List.mapIdx (clipElem ds t.chanSize) t.data).length := by
        simpa [List.length_mapIdx] using hj
      rw [List.getD_eq_getElem _ _ hj2, List.getElem_mapIdx]
      rw [List.getD_eq_getElem _ _ hj]
      simp [clipElem, hic]
    · cases h
  have hlh : clipLo ds (j / t.chanSize) ≤ clipHi ds (j / t.chanSize) := by
    unfold clipLo clipHi
    linarith
  obtain ⟨b1, b2, b3, b4, b5⟩ := npClip_spec (t.data.getD j 0) _ _ hlh
  rw [helem]
  exact ⟨rfl, b1, b2, b3, b4, b5⟩

/-- Witness for C8 with `mean = 0`, `std = 1`, `clip_factor = 3/2`
(the default 1.5): the raw value 5 is clipped to `3/2`, the raw value
-5 to `-(3/2)`. -/
theorem claim_C8_clip_to_interval_witness :
    clip_feature { data_shape0 := 1, feature_mean := [0], feature_std := [1] }
        ⟨[1, 1, 1, 1], [5]⟩ = some ⟨[1, 1, 1, 1], [3 / 2]⟩
    ∧ (⟨[1, 1, 1, 1], [(3 : ℚ) / 2]⟩ : Tensor).data.getD 0 0
        = clipHi { data_shape0 := 1, feature_mean := [0], feature_std := [1] } 0
    ∧ clip_feature { data_shape0 := 1, feature_mean := [0], feature_std := [1] }
        ⟨[1, 1, 1, 1], [-5]⟩ = some ⟨[1, 1, 1, 1], [-(3 / 2)]⟩
    ∧ (⟨[1, 1, 1, 1], [-((3 : ℚ) / 2)]⟩ : Tensor).data.getD 0 0
        = clipLo { data_shape0 := 1, feature_mean := [0], feature_std := [1] } 0 := by
  have hm : ∀ x : ℚ,
      List.mapIdx (clipElem { data_shape0 := 1, feature_mean := [0], feature_std := [1] }
          (Tensor.chanSize ⟨[1, 1, 1, 1], [x]⟩)) [x]
        = [clipElem { data_shape0 := 1, feature_mean := [0], feature_std := [1] }
            (Tensor.chanSize ⟨[1, 1, 1, 1], [x]⟩) 0 x] := by
    intro x; simp
  have h1 : clip_feature { data_shape0 := 1, feature_mean := [0], feature_std := [1] }
      ⟨[1, 1, 1, 1], [5]⟩ = some ⟨[1, 1, 1, 1], [3 / 2]⟩ := by
    unfold clip_feature
    rw [if_pos (by decide)]
    simp only [Option.some.injEq, Tensor.mk.injEq]
    refine ⟨trivial, ?_⟩
    rw [hm 5]
    norm_num [clipElem, clipLo, clipHi, npClip, Tensor.chanSize]
  have h2 : clip_feature { data_shape0 := 1, feature_mean := [0], feature_std := [1] }
      ⟨[1, 1, 1, 1], [-5]⟩ = some ⟨[1, 1, 1, 1], [-(3 / 2)]⟩ := by
    unfold clip_feature
    rw [if_pos (by decide)]
    simp only [Option.some.injEq, Tensor.mk.injEq]
    refine ⟨trivial, ?_⟩
    rw [hm (-5)]
    norm_num [clipElem, clipLo, clipHi, npClip, Tensor.chanSize]
  refine ⟨h1, ?_, h2, ?_⟩
  · exact (claim_C8_clip_to_interval _ _ _ h1 0 (by decide) (by decide)
      (by norm_num)).2.2.2.2.1 (by norm_num [clipHi, Tensor.chanSize])
  · exact (claim_C8_clip_to_interval _ _ _ h2 0 (by decide) (by decide)
      (by norm_num)).2.2.2.1 (by norm_num [clipLo, Tensor.chanSize])

/-- C7: producing an item composes the `index_complexes` lookup and the
raw h5 load with the transform steps in exactly the fixed order clip,
feature-normalize, target-normalize, chain-pair, 2-D projection, each
step applied precisely when its toggle is enabled: `__getitem__` equals
the load followed by `featureTransformPipeline`. -/
theorem claim_C7_getitem_is_pipeline (ds : DataSetCfg) (ics : List (String × String))
    (load : String × String → Option (Tensor × ℚ)) (index : ℕ) :
    dataSetGetItem ds ics load index =
      (ics[index]?).bind (fun fm => (load fm).bind (fun ft =>
        (featureTransformPipeline ds ft).map (fun r => (fm, r.1, r.2)))) := by
  unfold dataSetGetItem featureTransformPipeline appIf
  cases ics[index]? with
  | none => rfl
  | some fm =>
    simp only [Option.bind_eq_bind, Option.some_bind]
    cases load fm with
    | none => rfl
    | some ft =>
      simp only [Option.some_bind]
      cases ds.clip_features <;> cases ds.normalize_features <;>
        cases ds.normalize_targets <;> cases ds.pair_chain_feature <;>
        cases ds.transform <;>
        simp only [Option.bind_eq_bind, Option.some_bind, Option.map_bind,
          Function.comp, Option.map_some, Option.map_some', Option.pure_def,
          if_true, if_false, Bool.false_eq_true, ite_false, ite_true]
